import Mathlib

/-!
Verification of the windchime repository's in-process data transformations:
the paired-read demultiplexing/trim engine (`src/demultiplex.rs`), the
BIOM sparse-to-dense TSV converter (`src/biom.rs`), and the keyed
ASV/taxonomy table merge (`src/pipeline.rs`).

Machine integers are modelled as `Nat`/`Int`, IEEE doubles as exact
rationals (`ℚ`), byte strings as `List Nat`, and file contents as lists of
parsed values.  Fallible operations return `Except`/`Option`; observable
file-system effects are modelled as explicit event traces.
-/

namespace Windchime

/-! ## FASTQ records and the demultiplexing trim loop (`src/demultiplex.rs`) -/

/-- A FASTQ record as produced by the `bio` crate's reader: identifier,
optional description, sequence bytes and quality bytes. -/
structure FastqRecord where
  id : String
  desc : Option String
  seq : List Nat
  qual : List Nat
deriving DecidableEq

/-- The record-pair loop of `demultiplex_fastq_files`
(`src/demultiplex.rs` lines 254-290): reads the two record streams in
lockstep (stopping when either is exhausted), and for each pair checks
`seq1.len() >= end_idx && &seq1[start_idx..end_idx] == adaptseq_bytes`
with `start_idx = 4`, `end_idx = 4 + adaptseq.len()`; on a match it writes
the forward record with the first `end_idx` bytes of sequence and quality
removed (id and description kept by `Record::with_attrs`) together with
the untouched reverse record, otherwise it writes nothing for that pair.
The two components of the result are the two output streams. -/
def demultiplex_fastq_files (adaptseq : List Nat) :
    List FastqRecord → List FastqRecord → List FastqRecord × List FastqRecord
  | [], _ => ([], [])
  | _ :: _, [] => ([], [])
  | rec1 :: rest1, rec2 :: rest2 =>
    let start_idx := 4
    let end_idx := start_idx + adaptseq.length
    let rest := demultiplex_fastq_files adaptseq rest1 rest2
    if end_idx ≤ rec1.seq.length ∧ (rec1.seq.drop start_idx).take adaptseq.length = adaptseq then
      (FastqRecord.mk rec1.id rec1.desc (rec1.seq.drop end_idx) (rec1.qual.drop end_idx) :: rest.1,
       rec2 :: rest.2)
    else rest

/-- Spec-side predicate: the forward record is long enough and carries the
adapter at bytes `[4, 4 + adapter.length)`. -/
def adapterHit (adapter : List Nat) (r : FastqRecord) : Prop :=
  4 + adapter.length ≤ r.seq.length ∧ (r.seq.drop 4).take adapter.length = adapter

instance (adapter : List Nat) (r : FastqRecord) : Decidable (adapterHit adapter r) := by
  unfold adapterHit; infer_instance

/-- Spec-side trimmed forward record: the first `4 + adapter.length` bytes
removed from sequence and quality, identifier and description kept. -/
def trimmedForward (adapter : List Nat) (r : FastqRecord) : FastqRecord :=
  FastqRecord.mk r.id r.desc (r.seq.drop (4 + adapter.length)) (r.qual.drop (4 + adapter.length))

/-- Characterization of the trim loop as a filter-map over the zipped
(lockstep) pairing of the two input streams. -/
lemma demultiplex_eq_filterMap (adapter : List Nat) :
    ∀ fwd rev : List FastqRecord,
      demultiplex_fastq_files adapter fwd rev =
        ((fwd.zip rev).filterMap
           (fun p => if adapterHit adapter p.1 then some (trimmedForward adapter p.1) else none),
         (fwd.zip rev).filterMap
           (fun p => if adapterHit adapter p.1 then some p.2 else none))
  | [], rev => by simp [demultiplex_fastq_files]
  | r :: rest, [] => by simp [demultiplex_fastq_files]
  | r1 :: rest1, r2 :: rest2 => by
    have ih := demultiplex_eq_filterMap adapter rest1 rest2
    simp only [demultiplex_fastq_files, List.zip_cons_cons, List.filterMap_cons, ih]
    by_cases h : adapterHit adapter r1
    · have h' : 4 + adapter.length ≤ r1.seq.length ∧
          (r1.seq.drop 4).take adapter.length = adapter := h
      simp [h, h', trimmedForward]
    · have h' : ¬ (4 + adapter.length ≤ r1.seq.length ∧
          (r1.seq.drop 4).take adapter.length = adapter) := h
      simp [h, h']

/-- The two output streams always have equal length: exactly the retained
pairs appear in both. -/
lemma demultiplex_outputs_equal_length (adapter : List Nat) (fwd rev : List FastqRecord) :
    (demultiplex_fastq_files adapter fwd rev).1.length =
      (demultiplex_fastq_files adapter fwd rev).2.length := by
  rw [demultiplex_eq_filterMap]
  simp only
  induction fwd.zip rev with
  | nil => simp
  | cons p t ih =>
    by_cases h : adapterHit adapter p.1 <;> simp [List.filterMap_cons, h, ih]

/-- C1: `trim_and_write` (`demultiplex_fastq_files`) consumes the two
streams in lockstep, stopping when either is exhausted; a pair whose
forward record has length `≥ 4 + len(adapter)` and carries the adapter at
bytes `[4, 4+len(adapter))` is emitted as (forward with the first
`4+len(adapter)` bytes removed from sequence and quality, identifier and
description preserved; reverse unchanged), and every other pair is
dropped from both outputs. -/
theorem demultiplex_lockstep_trim (adapter : List Nat) (fwd rev : List FastqRecord)
    (hwf : ∀ r ∈ fwd, r.seq.length = r.qual.length) :
    demultiplex_fastq_files adapter fwd rev =
      ((fwd.zip rev).filterMap
         (fun p => if adapterHit adapter p.1 then some (trimmedForward adapter p.1) else none),
       (fwd.zip rev).filterMap
         (fun p => if adapterHit adapter p.1 then some p.2 else none)) :=
  demultiplex_eq_filterMap adapter fwd rev

/-- Concrete instantiation of `demultiplex_lockstep_trim`: a matching
forward record is trimmed, the reverse is passed through, and the
unpaired trailing reverse record is discarded. -/
theorem demultiplex_lockstep_trim_witness :
    demultiplex_fastq_files [65, 67]
        [FastqRecord.mk "r1" none [0, 1, 2, 3, 65, 67, 9, 9] [30, 30, 30, 30, 30, 30, 30, 30]]
        [FastqRecord.mk "s1" none [7, 7] [30, 30], FastqRecord.mk "s2" none [8] [30]] =
      (([(FastqRecord.mk "r1" none [0, 1, 2, 3, 65, 67, 9, 9] [30, 30, 30, 30, 30, 30, 30, 30],
          FastqRecord.mk "s1" none [7, 7] [30, 30])]).filterMap
         (fun p => if adapterHit [65, 67] p.1 then some (trimmedForward [65, 67] p.1) else none),
       ([(FastqRecord.mk "r1" none [0, 1, 2, 3, 65, 67, 9, 9] [30, 30, 30, 30, 30, 30, 30, 30],
          FastqRecord.mk "s1" none [7, 7] [30, 30])]).filterMap
         (fun p => if adapterHit [65, 67] p.1 then some p.2 else none)) :=
  demultiplex_lockstep_trim [65, 67]
    [FastqRecord.mk "r1" none [0, 1, 2, 3, 65, 67, 9, 9] [30, 30, 30, 30, 30, 30, 30, 30]]
    [FastqRecord.mk "s1" none [7, 7] [30, 30], FastqRecord.mk "s2" none [8] [30]]
    (by intro r hr; simp at hr; subst hr; rfl)

/-! ## The return value of `demultiplex_fastq_files` (C6) -/

/-- The value `demultiplex_fastq_files` returns to its caller on success.
The Rust function's type is `io::Result<()>` (`src/demultiplex.rs` line
216-221 and 289): the success payload is the unit value, carrying no
counts. -/
def demultiplex_return (adaptseq : List Nat) (fwd rev : List FastqRecord) : Unit := ()

/-- Number of record pairs examined by the loop: one per lockstep pair. -/
def pairsExamined (fwd rev : List FastqRecord) : Nat := (fwd.zip rev).length

/-- Number of record pairs retained (written to the outputs). -/
def pairsRetained (adaptseq : List Nat) (fwd rev : List FastqRecord) : Nat :=
  (demultiplex_fastq_files adaptseq fwd rev).1.length

/-- C6 counterexample: no function of the value `demultiplex_fastq_files`
returns on success can recover the pair counts, because the success
payload is always the unit value while the counts vary between inputs;
so the function does not return counts of pairs examined and retained. -/
theorem demultiplex_return_carries_no_counts :
    ¬ ∃ g : Unit → Nat × Nat,
        ∀ (a : List Nat) (fwd rev : List FastqRecord),
          g (demultiplex_return a fwd rev) =
            (pairsExamined fwd rev, pairsRetained a fwd rev) := by
  rintro ⟨g, hg⟩
  have h0 := hg [] [] []
  have h1 := hg []
      [FastqRecord.mk "a" none [0, 0, 0, 0] [30, 30, 30, 30]]
      [FastqRecord.mk "b" none [1] [30]]
  rw [h0] at h1
  simp [pairsExamined, pairsRetained, demultiplex_fastq_files] at h1

/-- C6 amended: `demultiplex_fastq_files` returns only the unit value to
its caller on success — no counts — and the pairs retained are observable
only through the output streams, which receive exactly one record each
per retained pair (equal lengths). -/
theorem demultiplex_return_unit (a : List Nat) (fwd rev : List FastqRecord) :
    demultiplex_return a fwd rev = () ∧
      (demultiplex_fastq_files a fwd rev).1.length =
        (demultiplex_fastq_files a fwd rev).2.length :=
  ⟨rfl, demultiplex_outputs_equal_length a fwd rev⟩

/-! ## Keyed table merge (`merge_asv_taxonomy`, `src/pipeline.rs` lines 604-682) -/

/-- A parsed TSV record: an ordered list of cell strings. -/
abbrev TsvRow := List String

/-- The key of a record: `rec.get(0).unwrap_or("")`. -/
def rowKey (r : TsvRow) : String := r.headD ""

/-- `HashMap::insert` on an association list viewed as a map: replaces the
entry with the given key if present, otherwise adds a new entry.  The
list order models one possible iteration order of the hash map; every
property proved below about the merge output is independent of entry
order, matching the hash map's unspecified iteration order. -/
def insertKeyed : List (String × TsvRow) → String → TsvRow → List (String × TsvRow)
  | [], k, v => [(k, v)]
  | p :: t, k, v => if p.1 = k then (k, v) :: t else p :: insertKeyed t k v

/-- The map-building loop of `merge_asv_taxonomy`: insert every record
under its first cell (later duplicates overwrite earlier ones). -/
def buildKeyedMap (recs : List TsvRow) : List (String × TsvRow) :=
  recs.foldl (fun m rec => insertKeyed m (rowKey rec) rec) []

/-- `HashMap::get`: the value stored under a key, if any. -/
def lookupKeyed (m : List (String × TsvRow)) (k : String) : Option TsvRow :=
  (m.find? (fun p => p.1 == k)).map Prod.snd

/-- The row-merging loop of `merge_asv_taxonomy` (lines 663-674): for each
entry of the ASV map, append the matching taxonomy row's cells minus its
key cell, or `pr2_headers.len() - 1` empty strings when there is no
match. -/
def mergedDataRows (pr2HeaderLen : Nat) (asvRecs pr2Recs : List TsvRow) : List TsvRow :=
  let pr2Map := buildKeyedMap pr2Recs
  (buildKeyedMap asvRecs).map (fun p =>
    match lookupKeyed pr2Map p.1 with
    | some pr2Record => p.2 ++ pr2Record.drop 1
    | none => p.2 ++ List.replicate (pr2HeaderLen - 1) "")

/-- Full output of `merge_asv_taxonomy`: the merged header (first ASV
column renamed `Feature.ID`, taxonomy columns minus the first, each
renamed with a fixed leading tag) followed by the merged data rows. -/
def merge_asv_taxonomy (asvHeaders pr2Headers : List String)
    (asvRecs pr2Recs : List TsvRow) : List TsvRow :=
  let mergedHeader :=
    (match asvHeaders with
     | [] => []
     | _ :: t => "Feature.ID" :: t) ++
    (pr2Headers.drop 1).map (fun c => "pr2_" ++ c)
  mergedHeader :: mergedDataRows pr2Headers.length asvRecs pr2Recs

/-- Spec-side: the last record of the list whose key is `k` (last-row-wins
de-duplication order). -/
def lastRowWithKey : List TsvRow → String → Option TsvRow
  | [], _ => none
  | r :: rest, k =>
    match lastRowWithKey rest k with
    | some v => some v
    | none => if rowKey r = k then some r else none

/-- Spec-side: the unique merged row produced for a primary key `k`. -/
def mergedRowFor (pr2HeaderLen : Nat) (asvRecs pr2Recs : List TsvRow) (k : String) : TsvRow :=
  match lastRowWithKey asvRecs k with
  | none => []
  | some rec =>
    match lastRowWithKey pr2Recs k with
    | some pr2Record => rec ++ pr2Record.drop 1
    | none => rec ++ List.replicate (pr2HeaderLen - 1) ""

/-- Keys of a keyed map. -/
def keysOf (m : List (String × TsvRow)) : List String := m.map Prod.fst

lemma keysOf_cons (p : String × TsvRow) (t : List (String × TsvRow)) :
    keysOf (p :: t) = p.1 :: keysOf t := rfl

lemma insertKeyed_cons_hit (p1 : String) (p2 : TsvRow) (t : List (String × TsvRow))
    (v : TsvRow) : insertKeyed ((p1, p2) :: t) p1 v = (p1, v) :: t := by
  simp [insertKeyed]

lemma insertKeyed_cons_miss (p1 : String) (p2 : TsvRow) (t : List (String × TsvRow))
    (k : String) (v : TsvRow) (h : ¬ p1 = k) :
    insertKeyed ((p1, p2) :: t) k v = (p1, p2) :: insertKeyed t k v := by
  simp [insertKeyed, h]

lemma lookupKeyed_cons (p : String × TsvRow) (t : List (String × TsvRow)) (a : String) :
    lookupKeyed (p :: t) a = if p.1 = a then some p.2 else lookupKeyed t a := by
  unfold lookupKeyed
  rw [List.find?_cons]
  by_cases h : p.1 = a
  · simp [h]
  · simp [h, show (p.1 == a) = false by simpa using h]

lemma mem_keysOf_insertKeyed (m : List (String × TsvRow)) (k : String) (v : TsvRow)
    (a : String) : a ∈ keysOf (insertKeyed m k v) ↔ a ∈ keysOf m ∨ a = k := by
  induction m with
  | nil => simp [insertKeyed, keysOf]
  | cons p t ih =>
    obtain ⟨p1, p2⟩ := p
    by_cases hpk : p1 = k
    · subst hpk
      rw [insertKeyed_cons_hit, keysOf_cons, keysOf_cons]
      simp only [List.mem_cons]
      tauto
    · rw [insertKeyed_cons_miss p1 p2 t k v hpk, keysOf_cons, keysOf_cons]
      simp only [List.mem_cons]
      rw [ih]
      tauto

lemma nodup_keysOf_insertKeyed (m : List (String × TsvRow)) (k : String) (v : TsvRow)
    (h : (keysOf m).Nodup) : (keysOf (insertKeyed m k v)).Nodup := by
  induction m with
  | nil => simp [insertKeyed, keysOf]
  | cons p t ih =>
    obtain ⟨p1, p2⟩ := p
    rw [keysOf_cons] at h
    rcases List.nodup_cons.mp h with ⟨hnot, hnd⟩
    by_cases hpk : p1 = k
    · subst hpk
      rw [insertKeyed_cons_hit, keysOf_cons]
      exact List.nodup_cons.mpr ⟨hnot, hnd⟩
    · rw [insertKeyed_cons_miss p1 p2 t k v hpk, keysOf_cons]
      refine List.nodup_cons.mpr ⟨?_, ih hnd⟩
      intro hmem
      rcases (mem_keysOf_insertKeyed t k v p1).mp hmem with hin | hk
      · exact hnot hin
      · exact hpk hk

lemma lookupKeyed_insertKeyed (m : List (String × TsvRow)) (k : String) (v : TsvRow)
    (a : String) :
    lookupKeyed (insertKeyed m k v) a = if a = k then some v else lookupKeyed m a := by
  induction m with
  | nil =>
    by_cases hak : a = k
    · subst hak
      simp [insertKeyed, lookupKeyed_cons, lookupKeyed]
    · have hka : ¬ k = a := fun h => hak h.symm
      simp [insertKeyed, lookupKeyed_cons, hka, hak, lookupKeyed]
  | cons p t ih =>
    obtain ⟨p1, p2⟩ := p
    by_cases hpk : p1 = k
    · subst hpk
      rw [insertKeyed_cons_hit, lookupKeyed_cons, lookupKeyed_cons]
      by_cases hak : a = p1
      · subst hak
        simp
      · have h1 : ¬ p1 = a := fun h => hak h.symm
        simp [h1, hak]
    · rw [insertKeyed_cons_miss p1 p2 t k v hpk, lookupKeyed_cons, lookupKeyed_cons]
      by_cases hpa : p1 = a
      · have hak : ¬ a = k := fun h => hpk (hpa.trans h)
        simp [hpa, hak]
      · simp [hpa, ih]

lemma nodup_keysOf_foldl (recs : List TsvRow) :
    ∀ m : List (String × TsvRow), (keysOf m).Nodup →
      (keysOf (recs.foldl (fun m rec => insertKeyed m (rowKey rec) rec) m)).Nodup := by
  induction recs with
  | nil => intro m h; simpa using h
  | cons r rest ih =>
    intro m h
    simp only [List.foldl_cons]
    exact ih _ (nodup_keysOf_insertKeyed m (rowKey r) r h)

lemma mem_keysOf_foldl (recs : List TsvRow) :
    ∀ (m : List (String × TsvRow)) (a : String),
      a ∈ keysOf (recs.foldl (fun m rec => insertKeyed m (rowKey rec) rec) m) ↔
        a ∈ keysOf m ∨ a ∈ recs.map rowKey := by
  induction recs with
  | nil => intro m a; simp
  | cons r rest ih =>
    intro m a
    simp only [List.foldl_cons, List.map_cons, List.mem_cons]
    rw [ih, mem_keysOf_insertKeyed]
    tauto

lemma lookupKeyed_foldl (recs : List TsvRow) :
    ∀ (m : List (String × TsvRow)) (a : String),
      lookupKeyed (recs.foldl (fun m rec => insertKeyed m (rowKey rec) rec) m) a =
        (match lastRowWithKey recs a with
         | some v => some v
         | none => lookupKeyed m a) := by
  induction recs with
  | nil => intro m a; simp [lastRowWithKey]
  | cons r rest ih =>
    intro m a
    simp only [List.foldl_cons, lastRowWithKey]
    rw [ih]
    cases hrest : lastRowWithKey rest a with
    | some v => simp
    | none =>
      simp only
      rw [lookupKeyed_insertKeyed]
      by_cases hak : a = rowKey r
      · simp [hak]
      · have : ¬ rowKey r = a := fun h => hak h.symm
        simp [hak, this]

lemma nodup_keysOf_buildKeyedMap (recs : List TsvRow) :
    (keysOf (buildKeyedMap recs)).Nodup :=
  nodup_keysOf_foldl recs [] (by simp [keysOf])

lemma mem_keysOf_buildKeyedMap (recs : List TsvRow) (a : String) :
    a ∈ keysOf (buildKeyedMap recs) ↔ a ∈ recs.map rowKey := by
  unfold buildKeyedMap
  rw [mem_keysOf_foldl]
  simp [keysOf]

lemma lookupKeyed_buildKeyedMap (recs : List TsvRow) (a : String) :
    lookupKeyed (buildKeyedMap recs) a = lastRowWithKey recs a := by
  unfold buildKeyedMap
  rw [lookupKeyed_foldl]
  cases h : lastRowWithKey recs a with
  | some v => simp
  | none => simp [lookupKeyed]

lemma lookupKeyed_of_mem (m : List (String × TsvRow)) (p : String × TsvRow)
    (hp : p ∈ m) (hnd : (keysOf m).Nodup) : lookupKeyed m p.1 = some p.2 := by
  induction m with
  | nil => simp at hp
  | cons q t ih =>
    rw [keysOf_cons] at hnd
    rcases List.nodup_cons.mp hnd with ⟨hnot, hnd'⟩
    rcases List.mem_cons.mp hp with rfl | hpt
    · simp [lookupKeyed_cons]
    · have hne : ¬ q.1 = p.1 := by
        intro h
        apply hnot
        rw [h]
        exact List.mem_map.mpr ⟨p, hpt, rfl⟩
      rw [lookupKeyed_cons]
      simp [hne]
      exact ih hpt hnd'

/-- C2: the merged output has exactly one data row per distinct key of the
primary (ASV) table — last duplicate row wins — each row consisting of
the primary row's cells followed by the matching taxonomy row's cells
minus its key cell, or `len(secondary header) - 1` empty strings when no
taxonomy row has that key; keys present only in the taxonomy table
produce no row, so the data-row count equals the number of distinct
primary keys regardless of the taxonomy table. -/
theorem merge_asv_taxonomy_left_join (asvHeaders pr2Headers : List String)
    (asvRecs pr2Recs : List TsvRow) :
    ((merge_asv_taxonomy asvHeaders pr2Headers asvRecs pr2Recs).tail).length =
        ((asvRecs.map rowKey).dedup).length ∧
    ∃ ks : List String,
      ks.Perm ((asvRecs.map rowKey).dedup) ∧
      (merge_asv_taxonomy asvHeaders pr2Headers asvRecs pr2Recs).tail =
        ks.map (mergedRowFor pr2Headers.length asvRecs pr2Recs) := by
  have htail : (merge_asv_taxonomy asvHeaders pr2Headers asvRecs pr2Recs).tail =
      mergedDataRows pr2Headers.length asvRecs pr2Recs := rfl
  rw [htail]
  set pr2HeaderLen := pr2Headers.length with hphl
  have hnd : (keysOf (buildKeyedMap asvRecs)).Nodup := nodup_keysOf_buildKeyedMap asvRecs
  have hperm : (keysOf (buildKeyedMap asvRecs)).Perm ((asvRecs.map rowKey).dedup) := by
    rw [List.perm_ext_iff_of_nodup hnd (List.nodup_dedup _)]
    intro a
    rw [List.mem_dedup, mem_keysOf_buildKeyedMap]
  have heq : mergedDataRows pr2HeaderLen asvRecs pr2Recs =
      (keysOf (buildKeyedMap asvRecs)).map (mergedRowFor pr2HeaderLen asvRecs pr2Recs) := by
    simp only [mergedDataRows, keysOf, List.map_map]
    apply List.map_congr_left
    intro p hp
    have hlast : lastRowWithKey asvRecs p.1 = some p.2 := by
      rw [← lookupKeyed_buildKeyedMap]
      exact lookupKeyed_of_mem _ p hp hnd
    simp only [Function.comp, mergedRowFor, hlast, lookupKeyed_buildKeyedMap]
  refine ⟨?_, keysOf (buildKeyedMap asvRecs), hperm, heq⟩
  rw [heq, List.length_map, hperm.length_eq]

/-! ## BIOM sparse-to-dense conversion (`src/biom.rs`) -/

/-- A parsed JSON value as relevant to the BIOM data entries.  Numbers
keep serde_json's distinction between integer-parsed numbers and
float-parsed numbers; floats are modelled as exact rationals. -/
inductive JVal where
  | jint (n : Int)
  | jfloat (q : ℚ)
  | jstr (s : String)
  | jbool (b : Bool)
  | jnull
deriving DecidableEq

/-- `serde_json::Value::as_u64`: some only for a non-negative
integer-parsed number within `u64` range. -/
def JVal.as_u64 : JVal → Option Nat
  | jint n => if 0 ≤ n ∧ n < 2 ^ 64 then some n.toNat else none
  | _ => none

/-- `serde_json::Value::as_f64`: some for any numeric value. -/
def JVal.as_f64 : JVal → Option ℚ
  | jint n => some (n : ℚ)
  | jfloat q => some q
  | _ => none

/-- A BIOM `rows` record: feature id plus ignored metadata. -/
structure BiomRow where
  id : String
  metadata : Option JVal
deriving DecidableEq

/-- A BIOM `columns` record: sample id plus ignored metadata. -/
structure BiomColumn where
  id : String
  metadata : Option JVal
deriving DecidableEq

/-- The deserialized BIOM document (`struct Biom` in `src/biom.rs`). -/
structure Biom where
  shape : List Nat
  data : List (List JVal)
  rows : List BiomRow
  columns : List BiomColumn
deriving DecidableEq

/-- `matrix[row_index][col_index] = value` on a row-major list matrix. -/
def setMatrix (m : List (List ℚ)) (r c : Nat) (v : ℚ) : List (List ℚ) :=
  m.set r ((m.getD r []).set c v)

/-- One iteration of the data-population loop of `convert_biom_to_tsv`
(`src/biom.rs` lines 62-81): check the entry is a three-element array,
extract indices with `as_u64` and the value with `as_f64`, bounds-check
against the shape, and assign into the dense matrix. -/
def processEntry (n_rows n_cols : Nat) (m : List (List ℚ)) (entry : List JVal) :
    Except String (List (List ℚ)) :=
  if entry.length ≠ 3 then
    .error "Invalid data entry in BIOM file; expected three elements"
  else
    match (entry.getD 0 .jnull).as_u64 with
    | none => .error "Invalid row index in BIOM data entry"
    | some row_index =>
      match (entry.getD 1 .jnull).as_u64 with
      | none => .error "Invalid column index in BIOM data entry"
      | some col_index =>
        match (entry.getD 2 .jnull).as_f64 with
        | none => .error "Invalid value in BIOM data entry"
        | some value =>
          if n_rows ≤ row_index ∨ n_cols ≤ col_index then
            .error "Data entry index out of bounds"
          else
            .ok (setMatrix m row_index col_index value)

/-- The dense matrix produced from the sparse data array: a zero matrix
of the declared shape, with every entry applied in order by direct index
assignment. -/
def buildMatrix (n_rows n_cols : Nat) (data : List (List JVal)) :
    Except String (List (List ℚ)) :=
  data.foldlM (fun m entry => processEntry n_rows n_cols m entry)
    (List.replicate n_rows (List.replicate n_cols 0))

/-- `std::f64::EPSILON` (as an exact rational). -/
def f64Epsilon : ℚ := 1 / 2 ^ 52

/-- Absolute value on the rational model of `f64`. -/
def ratAbs (q : ℚ) : ℚ := if q < 0 then -q else q

/-- `f64::trunc` (rounding toward zero), as an integer: truncating
division of the numerator by the (positive) denominator. -/
def ratTrunc (q : ℚ) : Int := q.num.tdiv (q.den : Int)

/-- Rust's saturating `as i64` cast on a (finite) double. -/
def f64_as_i64 (q : ℚ) : Int :=
  max (-(2 ^ 63)) (min (2 ^ 63 - 1) (ratTrunc q))

/-- Decimal digit characters of a natural number, with structural fuel
(`n + 1` always suffices). -/
def natDecimalChars : Nat → Nat → List Char
  | 0, _ => []
  | fuel + 1, n =>
    if n < 10 then [Char.ofNat (48 + n)]
    else natDecimalChars fuel (n / 10) ++ [Char.ofNat (48 + n % 10)]

/-- Decimal digits of a natural number (Rust integer `Display`). -/
def natDecimal (n : Nat) : String := String.mk (natDecimalChars (n + 1) n)

/-- Decimal rendering of an `i64` (Rust `format!("{}", v as i64)`). -/
def intDecimal (i : Int) : String :=
  if i < 0 then String.mk ('-' :: natDecimalChars (i.natAbs + 1) i.natAbs)
  else natDecimal i.toNat

/-- Fractional decimal digits of a rational in `[0, 1)`, with fuel
(1100 digits suffice for every finite double). -/
def fracDecimal : Nat → ℚ → String
  | 0, _ => ""
  | fuel + 1, q =>
    if q = 0 then ""
    else
      let q10 := q * 10
      let d := ratTrunc q10
      String.singleton (Char.ofNat (48 + d.toNat)) ++ fracDecimal fuel (q10 - d)

/-- Default decimal rendering of a double (Rust `format!("{}", val)`),
modelled as the exact decimal expansion of the rational value. -/
def ratDecimal (q : ℚ) : String :=
  let sgn := if q < 0 then "-" else ""
  let a := ratAbs q
  let ip := ratTrunc a
  let fr := a - ip
  if fr = 0 then sgn ++ natDecimal ip.toNat
  else sgn ++ natDecimal ip.toNat ++ "." ++ fracDecimal 1100 fr

/-- Cell formatting of `convert_biom_to_tsv` (`src/biom.rs` lines
101-106): a value within `f64::EPSILON` of its truncation is rendered as
a bare integer, every other value with default decimal formatting. -/
def formatCell (val : ℚ) : String :=
  if ratAbs (val - ratTrunc val) < f64Epsilon then intDecimal (f64_as_i64 val)
  else ratDecimal val

/-- One output field of the `csv` crate's writer with a tab delimiter:
fields needing quoting are wrapped in double quotes with inner quotes
doubled. -/
def csvField (s : String) : String :=
  if s.toList.any (fun c => c = '\t' ∨ c = Char.ofNat 34 ∨ c = '\n' ∨ c = '\r') then
    String.singleton (Char.ofNat 34) ++
      String.join (s.toList.map (fun c =>
        if c = Char.ofNat 34 then String.singleton (Char.ofNat 34) ++ String.singleton (Char.ofNat 34)
        else String.singleton c)) ++
      String.singleton (Char.ofNat 34)
  else s

/-- `write_record` of the tab-delimited writer: one output line. -/
def writeRecordLine (cells : List String) : String :=
  String.intercalate "\t" (cells.map csvField)

/-- `convert_biom_to_tsv` (`src/biom.rs` lines 41-113) on a parsed BIOM
document: validate the shape, materialize the dense matrix, and produce
the output lines — a header of `Feature ID` plus the column ids, then one
line per feature row with formatted cell values. -/
def convert_biom_to_tsv (biom : Biom) : Except String (List String) :=
  if biom.shape.length ≠ 2 then
    .error "Invalid BIOM file: shape field must have two elements"
  else if biom.shape.getD 0 0 ≠ biom.rows.length ∨
      biom.shape.getD 1 0 ≠ biom.columns.length then
    .error "Mismatch between shape and number of rows/columns in BIOM file"
  else
    match buildMatrix (biom.shape.getD 0 0) (biom.shape.getD 1 0) biom.data with
    | .error e => .error e
    | .ok matrix =>
      .ok (writeRecordLine ("Feature ID" :: biom.columns.map BiomColumn.id) ::
        biom.rows.enum.map (fun p =>
          writeRecordLine (p.2.id :: (matrix.getD p.1 []).map formatCell)))

/-- The worked BIOM example of the spec: `shape=[2,2]`,
`data=[[0,0,3],[1,1,2.5]]`, rows `F1,F2`, columns `S1,S2`. -/
def biomExample : Biom :=
  Biom.mk [2, 2]
    [[JVal.jint 0, JVal.jint 0, JVal.jint 3], [JVal.jint 1, JVal.jint 1, JVal.jfloat (5 / 2)]]
    [BiomRow.mk "F1" none, BiomRow.mk "F2" none]
    [BiomColumn.mk "S1" none, BiomColumn.mk "S2" none]

lemma natDecimalChars_ne_dot (fuel : Nat) :
    ∀ n : Nat, ∀ c ∈ natDecimalChars fuel n, c ≠ '.' := by
  induction fuel with
  | zero =>
    intro n c hc
    simp [natDecimalChars] at hc
  | succ fuel ih =>
    intro n c hc
    unfold natDecimalChars at hc
    by_cases h : n < 10
    · rw [if_pos h] at hc
      rcases List.mem_singleton.mp hc with rfl
      interval_cases n <;> decide
    · rw [if_neg h] at hc
      rcases List.mem_append.mp hc with h1 | h2
      · exact ih _ c h1
      · rcases List.mem_singleton.mp h2 with rfl
        have h10 : n % 10 < 10 := Nat.mod_lt _ (by omega)
        set d := n % 10 with hd
        clear_value d
        interval_cases d <;> decide

lemma intDecimal_ne_dot (i : Int) : ∀ c ∈ (intDecimal i).toList, c ≠ '.' := by
  intro c hc
  unfold intDecimal at hc
  by_cases h : i < 0
  · rw [if_pos h] at hc
    rcases List.mem_cons.mp hc with rfl | hmem
    · decide
    · exact natDecimalChars_ne_dot _ _ c hmem
  · rw [if_neg h] at hc
    exact natDecimalChars_ne_dot _ _ c hc

/-- C3: on the worked BIOM example the conversion produces exactly the
three expected tab-separated lines (`3` rendered with no decimal point,
`2.5` with one); and in general every cell value within `f64::EPSILON` of
its truncation is rendered as the bare saturating-`i64` decimal, which
contains no decimal point, while every other value takes the default
decimal formatting branch. -/
theorem convert_biom_to_tsv_example :
    convert_biom_to_tsv biomExample =
        .ok ["Feature ID\tS1\tS2", "F1\t3\t0", "F2\t0\t2.5"] ∧
    ∀ v : ℚ, ratAbs (v - ratTrunc v) < f64Epsilon →
      formatCell v = intDecimal (f64_as_i64 v) ∧ ∀ c ∈ (formatCell v).toList, c ≠ '.' := by
  constructor
  · with_unfolding_all rfl
  · intro v hv
    have hfc : formatCell v = intDecimal (f64_as_i64 v) := by
      unfold formatCell
      rw [if_pos hv]
    exact ⟨hfc, by rw [hfc]; exact intDecimal_ne_dot _⟩

/-- Concrete instantiation of the formatting branch of
`convert_biom_to_tsv_example` at the integer-valued cell `3`. -/
theorem convert_biom_to_tsv_example_witness :
    ratAbs ((3 : ℚ) - ratTrunc (3 : ℚ)) < f64Epsilon ∧
    formatCell (3 : ℚ) = intDecimal (f64_as_i64 (3 : ℚ)) ∧
    ∀ c ∈ (formatCell (3 : ℚ)).toList, c ≠ '.' :=
  ⟨by with_unfolding_all decide,
   (convert_biom_to_tsv_example.2 3 (by with_unfolding_all decide)).1,
   (convert_biom_to_tsv_example.2 3 (by with_unfolding_all decide)).2⟩

/-- Spec-side: the value a single data entry assigns to coordinate
`(r, c)`, if it is a well-formed entry addressing that coordinate. -/
def entryValueAt (e : List JVal) (r c : Nat) : Option ℚ :=
  if e.length = 3 then
    match (e.getD 0 .jnull).as_u64, (e.getD 1 .jnull).as_u64, (e.getD 2 .jnull).as_f64 with
    | some ri, some ci, some v => if ri = r ∧ ci = c then some v else none
    | _, _, _ => none
  else none

/-- Spec-side: the value of the last entry in list order addressing
coordinate `(r, c)`. -/
def lastEntryValue : List (List JVal) → Nat → Nat → Option ℚ
  | [], _, _ => none
  | e :: rest, r, c =>
    match lastEntryValue rest r c with
    | some v => some v
    | none => entryValueAt e r c

lemma processEntry_ok_inv (nr nc : Nat) (m m' : List (List ℚ)) (e : List JVal)
    (h : processEntry nr nc m e = .ok m') :
    ∃ ri ci v, e.length = 3 ∧ (e.getD 0 .jnull).as_u64 = some ri ∧
      (e.getD 1 .jnull).as_u64 = some ci ∧ (e.getD 2 .jnull).as_f64 = some v ∧
      ri < nr ∧ ci < nc ∧ m' = setMatrix m ri ci v := by
  unfold processEntry at h
  by_cases hlen : e.length ≠ 3
  · rw [if_pos hlen] at h; cases h
  rw [if_neg hlen] at h
  push_neg at hlen
  cases h0 : (e.getD 0 .jnull).as_u64 with
  | none => rw [h0] at h; cases h
  | some ri =>
    rw [h0] at h
    cases h1 : (e.getD 1 .jnull).as_u64 with
    | none => rw [h1] at h; cases h
    | some ci =>
      rw [h1] at h
      cases h2 : (e.getD 2 .jnull).as_f64 with
      | none => rw [h2] at h; cases h
      | some v =>
        rw [h2] at h
        simp only at h
        by_cases hb : nr ≤ ri ∨ nc ≤ ci
        · rw [if_pos hb] at h; cases h
        · rw [if_neg hb] at h
          push_neg at hb
          injection h with h
          exact ⟨ri, ci, v, hlen, rfl, rfl, rfl, hb.1, hb.2, h.symm⟩

lemma setMatrix_getD_same (m : List (List ℚ)) (ri ci : Nat) (v : ℚ)
    (hr : ri < m.length) (hc : ci < (m.getD ri []).length) :
    ((setMatrix m ri ci v).getD ri []).getD ci 0 = v := by
  unfold setMatrix
  simp only [List.getD_eq_getElem?_getD] at hc ⊢
  rw [List.getElem?_set_self hr]
  simp only [Option.getD_some]
  rw [List.getElem?_set_self hc]
  rfl

lemma setMatrix_getD_other (m : List (List ℚ)) (ri ci r c : Nat) (v : ℚ)
    (hne : ¬ (ri = r ∧ ci = c)) :
    ((setMatrix m ri ci v).getD r []).getD c 0 = ((m.getD r []).getD c 0) := by
  unfold setMatrix
  simp only [List.getD_eq_getElem?_getD]
  by_cases hrr : ri = r
  · subst hrr
    have hcc : ci ≠ c := fun h => hne ⟨rfl, h⟩
    by_cases hlt : ri < m.length
    · rw [List.getElem?_set_self hlt]
      simp only [Option.getD_some]
      rw [List.getElem?_set_ne hcc]
    · have h1 : (m.set ri (((m[ri]?).getD []).set ci v))[ri]? = none := by
        rw [List.getElem?_eq_none_iff]
        simpa using Nat.le_of_not_lt hlt
      have h2 : m[ri]? = none := by
        rw [List.getElem?_eq_none_iff]
        exact Nat.le_of_not_lt hlt
      rw [h1, h2]
  · rw [List.getElem?_set_ne hrr]

lemma setMatrix_length (m : List (List ℚ)) (ri ci : Nat) (v : ℚ) :
    (setMatrix m ri ci v).length = m.length := by
  unfold setMatrix
  exact List.length_set m ri _

lemma setMatrix_rowlen (m : List (List ℚ)) (ri ci : Nat) (v : ℚ) (nc : Nat) (j : Nat)
    (hall : ∀ i : Nat, ((m.getD i []).length = nc ∨ m.length ≤ i)) :
    ((setMatrix m ri ci v).getD j []).length = nc ∨ (setMatrix m ri ci v).length ≤ j := by
  rw [setMatrix_length]
  by_cases hj : j < m.length
  · left
    unfold setMatrix
    simp only [List.getD_eq_getElem?_getD]
    by_cases hji : ri = j
    · subst hji
      rw [List.getElem?_set_self hj]
      simp only [Option.getD_some, List.length_set]
      rcases hall ri with h | h
      · simpa [List.getD_eq_getElem?_getD] using h
      · omega
    · rw [List.getElem?_set_ne hji]
      rcases hall j with h | h
      · simpa [List.getD_eq_getElem?_getD] using h
      · omega
  · right
    omega

lemma lastEntryValue_cons (e : List JVal) (rest : List (List JVal)) (r c : Nat) :
    lastEntryValue (e :: rest) r c =
      match lastEntryValue rest r c with
      | some v => some v
      | none => entryValueAt e r c := rfl

lemma buildMatrix_fold_cell (nr nc r c : Nat) (hr : r < nr) (hc : c < nc) :
    ∀ (data : List (List JVal)) (m M : List (List ℚ)),
      m.length = nr →
      (∀ i : Nat, ((m.getD i []).length = nc ∨ m.length ≤ i)) →
      data.foldlM (fun acc e => processEntry nr nc acc e) m = .ok M →
      (M.getD r []).getD c 0 = (lastEntryValue data r c).getD ((m.getD r []).getD c 0) := by
  intro data
  induction data with
  | nil =>
    intro m M hml hrow h
    simp only [List.foldlM_nil] at h
    injection h with h
    subst h
    simp [lastEntryValue]
  | cons e rest ih =>
    intro m M hml hrow h
    rw [List.foldlM_cons] at h
    cases hpe : processEntry nr nc m e with
    | error err =>
      rw [hpe] at h
      change Except.error err = Except.ok M at h
      cases h
    | ok m1 =>
      rw [hpe] at h
      have hbind : rest.foldlM (fun acc e => processEntry nr nc acc e) m1 = .ok M := h
      obtain ⟨ri, ci, v, hlen, h0, h1, h2, hri, hci, hm1⟩ :=
        processEntry_ok_inv nr nc m m1 e hpe
      subst hm1
      have hlen1 : (setMatrix m ri ci v).length = nr := by
        rw [setMatrix_length]; exact hml
      have hrow1 : ∀ i : Nat,
          (((setMatrix m ri ci v).getD i []).length = nc ∨ (setMatrix m ri ci v).length ≤ i) :=
        fun i => setMatrix_rowlen m ri ci v nc i hrow
      have hM := ih (setMatrix m ri ci v) M hlen1 hrow1 hbind
      rw [hM, lastEntryValue_cons]
      cases hrest : lastEntryValue rest r c with
      | some w => simp [hrest]
      | none =>
        simp only [hrest, Option.getD_none]
        have hev : entryValueAt e r c = if ri = r ∧ ci = c then some v else none := by
          unfold entryValueAt
          rw [if_pos hlen, h0, h1, h2]
        rw [hev]
        by_cases hmatch : ri = r ∧ ci = c
        · obtain ⟨rfl, rfl⟩ := hmatch
          rw [if_pos ⟨rfl, rfl⟩]
          have hrm : ri < m.length := by omega
          have hcm : ci < (m.getD ri []).length := by
            rcases hrow ri with hgood | hbad
            · omega
            · omega
          rw [setMatrix_getD_same m ri ci v hrm hcm]
          simp
        · rw [if_neg hmatch, setMatrix_getD_other m ri ci r c v hmatch]
          simp

/-- C4: duplicate `(row, col)` coordinates in the BIOM data list
overwrite: the dense matrix materialized by `convert_biom_to_tsv` holds
at each in-bounds coordinate exactly the value of the last entry in list
order addressing it (and the initial zero when no entry does) — values
are never summed. -/
theorem buildMatrix_last_write_wins (nr nc : Nat) (data : List (List JVal))
    (M : List (List ℚ)) (r c : Nat) (h : buildMatrix nr nc data = .ok M)
    (hr : r < nr) (hc : c < nc) :
    (M.getD r []).getD c 0 = (lastEntryValue data r c).getD 0 := by
  have hbase : ((List.replicate nr (List.replicate nc (0 : ℚ))).getD r []).getD c 0 = 0 := by
    simp [List.getD_eq_getElem?_getD, List.getElem?_replicate, hr, hc]
  have hrow : ∀ i : Nat,
      (((List.replicate nr (List.replicate nc (0 : ℚ))).getD i []).length = nc ∨
        (List.replicate nr (List.replicate nc (0 : ℚ))).length ≤ i) := by
    intro i
    by_cases hi : i < nr
    · left
      simp [List.getD_eq_getElem?_getD, List.getElem?_replicate, hi]
    · right
      simpa using Nat.le_of_not_lt hi
  have := buildMatrix_fold_cell nr nc r c hr hc data
    (List.replicate nr (List.replicate nc 0)) M (by simp) hrow h
  rw [this, hbase]

/-- Concrete instantiation of `buildMatrix_last_write_wins`: two entries
both address `(0, 0)`; the materialized cell holds the later value `7`,
not the sum `8`. -/
theorem buildMatrix_last_write_wins_witness :
    (([[(7 : ℚ)]] : List (List ℚ)).getD 0 []).getD 0 0 =
      (lastEntryValue
        [[JVal.jint 0, JVal.jint 0, JVal.jint 1], [JVal.jint 0, JVal.jint 0, JVal.jint 7]]
        0 0).getD 0 :=
  buildMatrix_last_write_wins 1 1
    [[JVal.jint 0, JVal.jint 0, JVal.jint 1], [JVal.jint 0, JVal.jint 0, JVal.jint 7]]
    [[(7 : ℚ)]] 0 0 (by with_unfolding_all rfl) (by decide) (by decide)

/-- Spec-side: a data entry whose (parsed) row or column index is out of
bounds with respect to the declared shape. -/
def entryOutOfBounds (nr nc : Nat) (e : List JVal) : Prop :=
  (∃ ri, (e.getD 0 .jnull).as_u64 = some ri ∧ nr ≤ ri) ∨
  (∃ ci, (e.getD 1 .jnull).as_u64 = some ci ∧ nc ≤ ci)

/-- Spec-side: a data entry whose value field is not numeric. -/
def entryValueNonNumeric (e : List JVal) : Prop :=
  (e.getD 2 .jnull).as_f64 = none

lemma processEntry_bad (nr nc : Nat) (e : List JVal)
    (hbad : entryOutOfBounds nr nc e ∨ entryValueNonNumeric e) :
    ∀ m, ∃ msg, processEntry nr nc m e = .error msg := by
  intro m
  cases hres : processEntry nr nc m e with
  | error msg => exact ⟨msg, rfl⟩
  | ok m1 =>
    exfalso
    obtain ⟨ri, ci, v, hlen, h0, h1, h2, hri, hci, _⟩ :=
      processEntry_ok_inv nr nc m m1 e hres
    rcases hbad with (⟨ri2, hri2, hb⟩ | ⟨ci2, hci2, hb⟩) | hval
    · rw [h0] at hri2
      injection hri2 with hh
      omega
    · rw [h1] at hci2
      injection hci2 with hh
      omega
    · unfold entryValueNonNumeric at hval
      rw [h2] at hval
      cases hval

lemma foldlM_processEntry_error (nr nc : Nat) (e : List JVal)
    (hbad : ∀ m, ∃ msg, processEntry nr nc m e = .error msg) :
    ∀ data : List (List JVal), e ∈ data →
      ∀ m, ∃ msg,
        data.foldlM (fun acc x => processEntry nr nc acc x) m = .error msg := by
  intro data
  induction data with
  | nil => intro he; cases he
  | cons x rest ih =>
    intro he m
    rw [List.foldlM_cons]
    rcases List.mem_cons.mp he with rfl | hrest
    · obtain ⟨msg, hmsg⟩ := hbad m
      rw [hmsg]
      exact ⟨msg, rfl⟩
    · cases hx : processEntry nr nc m x with
      | error msg => exact ⟨msg, rfl⟩
      | ok m1 =>
        obtain ⟨msg, hmsg⟩ := ih hrest m1
        exact ⟨msg, hmsg⟩

/-- C5: the conversion returns an error (never a converted table)
whenever the shape array does not have exactly two elements, or its
entries disagree with the number of row/column records, or a data entry
addresses an out-of-bounds coordinate, or a data entry's value field is
not numeric. -/
theorem convert_biom_to_tsv_rejects (biom : Biom)
    (h : biom.shape.length ≠ 2 ∨
         biom.shape.getD 0 0 ≠ biom.rows.length ∨
         biom.shape.getD 1 0 ≠ biom.columns.length ∨
         (∃ e ∈ biom.data,
            entryOutOfBounds (biom.shape.getD 0 0) (biom.shape.getD 1 0) e ∨
            entryValueNonNumeric e)) :
    ∃ msg, convert_biom_to_tsv biom = .error msg := by
  unfold convert_biom_to_tsv
  by_cases h2 : biom.shape.length ≠ 2
  · rw [if_pos h2]
    exact ⟨_, rfl⟩
  · rw [if_neg h2]
    by_cases hmm : biom.shape.getD 0 0 ≠ biom.rows.length ∨
        biom.shape.getD 1 0 ≠ biom.columns.length
    · rw [if_pos hmm]
      exact ⟨_, rfl⟩
    · rw [if_neg hmm]
      rcases h with hbad | hbad | hbad | ⟨e, he, hbad⟩
      · exact absurd hbad h2
      · exact absurd (Or.inl hbad) hmm
      · exact absurd (Or.inr hbad) hmm
      · obtain ⟨msg, hmsg⟩ :=
          foldlM_processEntry_error (biom.shape.getD 0 0) (biom.shape.getD 1 0) e
            (processEntry_bad _ _ e hbad) biom.data he
            (List.replicate (biom.shape.getD 0 0)
              (List.replicate (biom.shape.getD 1 0) 0))
        have hbm : buildMatrix (biom.shape.getD 0 0) (biom.shape.getD 1 0) biom.data =
            .error msg := hmsg
        rw [hbm]
        exact ⟨msg, rfl⟩

/-- Concrete instantiation of `convert_biom_to_tsv_rejects`: a document
whose shape array has one element is rejected. -/
theorem convert_biom_to_tsv_rejects_witness :
    ∃ msg, convert_biom_to_tsv (Biom.mk [3] [] [] []) = .error msg :=
  convert_biom_to_tsv_rejects (Biom.mk [3] [] [] []) (Or.inl (by decide))

/-! ## Output-file effect traces (C7) and determinism (C8) -/

/-- An observable effect on an output file. -/
inductive FsEvent where
  | createOutput
  | writeLine (line : String)
deriving DecidableEq

/-- Sequential line writes, the `i`-th write succeeding iff `writeOk i`
(the environment's I/O behaviour); on the first failing write the
remaining lines are abandoned and an I/O error is reported, mirroring
the `?` propagation on each `write_record` call. -/
def writeLinesTrace (writeOk : Nat → Bool) : Nat → List String → List FsEvent × Option String
  | _, [] => ([], none)
  | i, l :: ls =>
    if writeOk i then
      (FsEvent.writeLine l :: (writeLinesTrace writeOk (i + 1) ls).1,
       (writeLinesTrace writeOk (i + 1) ls).2)
    else ([], some "I/O error: write failed")

/-- File-system trace of `convert_biom_to_tsv`: parsing, shape
validation and matrix population all happen before
`WriterBuilder::from_path` creates the output file (`src/biom.rs` lines
84-86), so a content error produces no event; on the success path the
file is created and the header and rows are written in order, each write
fallible. -/
def convert_biom_trace (biom : Biom) (writeOk : Nat → Bool) :
    List FsEvent × Option String :=
  match convert_biom_to_tsv biom with
  | .error e => ([], some e)
  | .ok lines =>
    (FsEvent.createOutput :: (writeLinesTrace writeOk 0 lines).1,
     (writeLinesTrace writeOk 0 lines).2)

/-- File-system trace of `merge_asv_taxonomy`: both input tables are
read fully (either read may fail) before the output file is created
(`src/pipeline.rs` lines 608-643); then header and data rows are written
in order, each write fallible.  Each input is the outcome of reading one
table: its header and records, or a read/parse error. -/
def merge_asv_trace (asvInput pr2Input : Except String (List String × List TsvRow))
    (writeOk : Nat → Bool) : List FsEvent × Option String :=
  match asvInput with
  | .error e => ([], some e)
  | .ok asv =>
    match pr2Input with
    | .error e => ([], some e)
    | .ok pr2 =>
      (FsEvent.createOutput ::
        (writeLinesTrace writeOk 0
          ((merge_asv_taxonomy asv.1 pr2.1 asv.2 pr2.2).map writeRecordLine)).1,
       (writeLinesTrace writeOk 0
          ((merge_asv_taxonomy asv.1 pr2.1 asv.2 pr2.2).map writeRecordLine)).2)

/-- C7 counterexample: on the valid worked example with an environment
whose second write fails, the conversion returns an error while the
output file has been created and holds the header line — a partial
output file in a valid-looking state, contradicting the claim that an
error leaves no partial output. -/
theorem convert_biom_error_leaves_partial_output :
    (convert_biom_trace biomExample (fun i => i == 0)).2.isSome = true ∧
    (convert_biom_trace biomExample (fun i => i == 0)).1 =
      [FsEvent.createOutput, FsEvent.writeLine "Feature ID\tS1\tS2"] := by
  constructor
  · with_unfolding_all rfl
  · with_unfolding_all rfl

lemma writeLinesTrace_all_ok (writeOk : Nat → Bool) (hok : ∀ i, writeOk i = true) :
    ∀ (start : Nat) (ls : List String), (writeLinesTrace writeOk start ls).2 = none := by
  intro start ls
  induction ls generalizing start with
  | nil => rfl
  | cons l t ih => simp [writeLinesTrace, hok start, ih]

/-- C7 amended: every error determined by the input content (read/parse
failure, schema validation, matrix population) is raised before the
output file is created, so when the environment's writes all succeed an
error result leaves no output file at all — no event is emitted; only an
I/O write failure after creation (see the counterexample) can leave a
partial file. -/
theorem no_output_on_content_error (biom : Biom)
    (asvInput pr2Input : Except String (List String × List TsvRow))
    (writeOk : Nat → Bool) (hok : ∀ i, writeOk i = true) :
    ((convert_biom_trace biom writeOk).2.isSome = true →
      (convert_biom_trace biom writeOk).1 = []) ∧
    ((merge_asv_trace asvInput pr2Input writeOk).2.isSome = true →
      (merge_asv_trace asvInput pr2Input writeOk).1 = []) := by
  have hw := writeLinesTrace_all_ok writeOk hok
  constructor
  · intro hsome
    unfold convert_biom_trace at hsome ⊢
    cases hconv : convert_biom_to_tsv biom with
    | error e => simp [hconv]
    | ok lines =>
      rw [hconv] at hsome
      simp [hw 0 lines] at hsome
  · intro hsome
    unfold merge_asv_trace at hsome ⊢
    cases asvInput with
    | error e => simp
    | ok asv =>
      cases pr2Input with
      | error e => simp
      | ok pr2 =>
        simp [hw] at hsome

/-- Concrete instantiation of `no_output_on_content_error`: a schema
error and a failed input read each leave an empty trace. -/
theorem no_output_on_content_error_witness :
    (convert_biom_trace (Biom.mk [3] [] [] []) (fun _ => true)).1 = [] ∧
    (merge_asv_trace (.error "read failed") (.ok ([], [])) (fun _ => true)).1 = [] :=
  ⟨(no_output_on_content_error (Biom.mk [3] [] [] []) (.error "read failed") (.ok ([], []))
      (fun _ => true) (fun _ => rfl)).1 (by with_unfolding_all rfl),
   (no_output_on_content_error (Biom.mk [3] [] [] []) (.error "read failed") (.ok ([], []))
      (fun _ => true) (fun _ => rfl)).2 (by rfl)⟩

/-- C8: the conversion output is a function of the parsed document
content alone — shape, data, row ids, column ids; two parses agreeing on
those fields (even with different ignored metadata) convert to identical
bytes, so re-running on the same input file is byte-identical and no
unordered-container iteration order is involved. -/
theorem convert_biom_to_tsv_deterministic (b b' : Biom)
    (h1 : b.shape = b'.shape) (h2 : b.data = b'.data)
    (h3 : b.rows.map BiomRow.id = b'.rows.map BiomRow.id)
    (h4 : b.columns.map BiomColumn.id = b'.columns.map BiomColumn.id) :
    convert_biom_to_tsv b = convert_biom_to_tsv b' := by
  have key : ∀ (rows : List BiomRow) (matrix : List (List ℚ)),
      rows.enum.map (fun p => writeRecordLine (p.2.id :: (matrix.getD p.1 []).map formatCell)) =
      (rows.map BiomRow.id).enum.map
        (fun q => writeRecordLine (q.2 :: (matrix.getD q.1 []).map formatCell)) := by
    intro rows matrix
    rw [List.enum_map, List.map_map]
    rfl
  have hrl : b.rows.length = b'.rows.length := by
    have := congrArg List.length h3
    simpa using this
  have hcl : b.columns.length = b'.columns.length := by
    have := congrArg List.length h4
    simpa using this
  unfold convert_biom_to_tsv
  rw [h1, h2, hrl, hcl, h4]
  by_cases hs : b'.shape.length ≠ 2
  · simp only [if_pos hs]
  · simp only [if_neg hs]
    by_cases hmm : b'.shape.getD 0 0 ≠ b'.rows.length ∨
        b'.shape.getD 1 0 ≠ b'.columns.length
    · simp only [if_pos hmm]
    · simp only [if_neg hmm]
      cases hbm : buildMatrix (b'.shape.getD 0 0) (b'.shape.getD 1 0) b'.data with
      | error e => rfl
      | ok matrix =>
        simp only
        rw [key b.rows matrix, key b'.rows matrix, h3]

/-- Concrete instantiation of `convert_biom_to_tsv_deterministic`: two
parses of the worked example differing only in row/column metadata
produce identical output. -/
theorem convert_biom_to_tsv_deterministic_witness :
    convert_biom_to_tsv biomExample =
      convert_biom_to_tsv
        (Biom.mk [2, 2]
          [[JVal.jint 0, JVal.jint 0, JVal.jint 3],
           [JVal.jint 1, JVal.jint 1, JVal.jfloat (5 / 2)]]
          [BiomRow.mk "F1" (some (JVal.jstr "m1")), BiomRow.mk "F2" none]
          [BiomColumn.mk "S1" none, BiomColumn.mk "S2" (some (JVal.jbool true))]) :=
  convert_biom_to_tsv_deterministic _ _ rfl rfl rfl rfl

/-! ## Batch demultiplexing driver and manifest generation
(`run_demultiplex_combined`, `generate_qiime_manifest`) -/

/-- Rust `str::split(sep)` for a single-character separator, structural
over the character list: empty input yields one empty piece, and every
separator occurrence starts a new piece. -/
def splitCharAux (sep : Char) : List Char → List Char → List String
  | [], acc => [String.mk acc.reverse]
  | c :: cs, acc =>
    if c = sep then String.mk acc.reverse :: splitCharAux sep cs []
    else splitCharAux sep cs (c :: acc)

/-- Split a string on a separator character. -/
def splitChar (sep : Char) (s : String) : List String :=
  splitCharAux sep s.data []

/-- Rust `str::trim`: remove leading and trailing whitespace. -/
def trimString (s : String) : String :=
  String.mk (((s.data.dropWhile fun c => c.isWhitespace).reverse.dropWhile
    fun c => c.isWhitespace).reverse)

/-- Directory where output files are written (`OUTPUT_DIR`). -/
def OUTPUT_DIR : String := "windchime_out"

/-- `out_path`: prepend the output directory. -/
def out_path (filename : String) : String := OUTPUT_DIR ++ "/" ++ filename

/-- Environment of the demultiplexing batch driver: what `find_fastq`
resolves a base name to, and the outcome of `demultiplex_fastq_files`
for a located pair. -/
structure DemuxEnv where
  findFastq : String → Option String
  demuxResult : String → String → String → String → Except String Unit

/-- Per-line processing of `run_demultiplex_combined`
(`src/demultiplex.rs` lines 79-124), returning the diagnostics printed
for that line: a wrong field count, a missing R1 or R2 input, or a
trimming error are each reported and recovered locally — the task never
propagates an error. -/
def processBarcodeLine (env : DemuxEnv) (barcode_line : String) : List String :=
  let fields := splitChar '\t' (trimString barcode_line)
  if fields.length ≠ 6 then ["Invalid line: " ++ barcode_line]
  else
    match env.findFastq (fields.getD 1 "" ++ "_R1_001.fastq") with
    | none => ["R1 file does not exist for " ++ fields.getD 1 ""]
    | some fq_r1 =>
      match env.findFastq (fields.getD 1 "" ++ "_R2_001.fastq") with
      | none => ["R2 file does not exist for " ++ fields.getD 1 ""]
      | some fq_r2 =>
        match env.demuxResult fq_r1 fq_r2 (fields.getD 5 "")
            (fields.getD 0 "" ++ "_" ++ fields.getD 5 "") with
        | .error e => ["Error processing " ++ fields.getD 1 "" ++ ": " ++ e]
        | .ok _ => []

/-- `run_demultiplex_combined` (`src/demultiplex.rs` lines 41-128): the
only `?`-propagated failure is opening the barcodes file.  Otherwise the
header line is skipped, unreadable lines are dropped with a diagnostic,
every remaining line is processed with all failures recovered locally,
and the function returns success.  The success payload models the
printed diagnostics; the Rust success value is `()`. -/
def run_demultiplex_combined (env : DemuxEnv)
    (openResult : Except String (List (Except String String))) :
    Except String (List String) :=
  match openResult with
  | .error e => .error e
  | .ok lineResults =>
    let barcode_lines := lineResults.enum.filterMap (fun p =>
      if p.1 = 0 then none
      else
        match p.2 with
        | .ok l => some l
        | .error _ => none)
    .ok ((barcode_lines.map (processBarcodeLine env)).flatten)

/-- C9: whenever the barcodes file opens, `run_demultiplex_combined`
returns success — for every environment, that is, regardless of how many
samples fail (wrong field count, missing inputs, trimming errors), so
the caller cannot distinguish a fully failed batch from a successful
one; only a failure to open the barcodes file is propagated. -/
theorem run_demultiplex_combined_always_ok (env : DemuxEnv)
    (lineResults : List (Except String String)) (e : String) :
    (∃ diagnostics,
      run_demultiplex_combined env (.ok lineResults) = .ok diagnostics) ∧
    run_demultiplex_combined env (.error e) = .error e :=
  ⟨⟨_, rfl⟩, rfl⟩

/-- Environment of manifest generation: the result of
`fs::canonicalize` on each path. -/
structure ManifestEnv where
  canonicalize : String → Except String String

/-- The QIIME2 manifest header line. -/
def manifestHeader : String :=
  "sample-id\tforward-absolute-filepath\treverse-absolute-filepath"

/-- The sample id of one barcode line: `{name}_{seq2}`. -/
def sampleIdOf (line : String) : String :=
  (splitChar '\t' line).getD 0 "" ++ "_" ++ (splitChar '\t' line).getD 5 ""

/-- The loop of `generate_qiime_manifest` (`src/demultiplex.rs` lines
151-182): skip lines without exactly six tab-separated fields with a
diagnostic; for the rest, canonicalize the two expected demultiplexed
output paths — propagating the first failure immediately, abandoning all
remaining lines — and emit one manifest row.  Returns the rows written
before any failure, and the failure if one occurred. -/
def generate_qiime_manifest_rows (env : ManifestEnv) :
    List String → List String × Option String
  | [] => ([], none)
  | line :: rest =>
    if (splitChar '\t' line).length ≠ 6 then
      generate_qiime_manifest_rows env rest
    else
      match env.canonicalize (out_path (sampleIdOf line ++ "_L001_R1_001.fastq.gz")) with
      | .error e => ([], some e)
      | .ok forward_abs =>
        match env.canonicalize (out_path (sampleIdOf line ++ "_L001_R2_001.fastq.gz")) with
        | .error e => ([], some e)
        | .ok reverse_abs =>
          ((sampleIdOf line ++ "\t" ++ forward_abs ++ "\t" ++ reverse_abs) ::
              (generate_qiime_manifest_rows env rest).1,
            (generate_qiime_manifest_rows env rest).2)

/-- `generate_qiime_manifest` (`src/demultiplex.rs` lines 139-185): the
manifest header is written first, the barcodes header line is skipped,
then rows are written until the end or the first canonicalization
failure.  The first component is the lines written to the manifest file
(left on disk in all cases); the second is the propagated error, if
any. -/
def generate_qiime_manifest (env : ManifestEnv) :
    List String → List String × Option String
  | [] => ([manifestHeader], none)
  | _ :: rest =>
    (manifestHeader :: (generate_qiime_manifest_rows env rest).1,
     (generate_qiime_manifest_rows env rest).2)

/-- Spec-side: the manifest row produced for one barcode line, when its
processing succeeds. -/
def manifestRowFor (env : ManifestEnv) (line : String) : Option String :=
  if (splitChar '\t' line).length ≠ 6 then none
  else
    match env.canonicalize (out_path (sampleIdOf line ++ "_L001_R1_001.fastq.gz")),
        env.canonicalize (out_path (sampleIdOf line ++ "_L001_R2_001.fastq.gz")) with
    | .ok f, .ok r => some (sampleIdOf line ++ "\t" ++ f ++ "\t" ++ r)
    | _, _ => none

/-- Spec-side: a barcode line whose processing does not fail — it is
either skipped (wrong field count) or both canonicalizations succeed. -/
def lineProcessOk (env : ManifestEnv) (line : String) : Prop :=
  (splitChar '\t' line).length ≠ 6 ∨
  ((∃ f, env.canonicalize (out_path (sampleIdOf line ++ "_L001_R1_001.fastq.gz")) = .ok f) ∧
   (∃ r, env.canonicalize (out_path (sampleIdOf line ++ "_L001_R2_001.fastq.gz")) = .ok r))

/-- Spec-side: a six-field barcode line on which canonicalization of one
of the two expected output files fails with error `e`. -/
def lineFailsWith (env : ManifestEnv) (line : String) (e : String) : Prop :=
  (splitChar '\t' line).length = 6 ∧
  (env.canonicalize (out_path (sampleIdOf line ++ "_L001_R1_001.fastq.gz")) = .error e ∨
   ((∃ f, env.canonicalize (out_path (sampleIdOf line ++ "_L001_R1_001.fastq.gz")) = .ok f) ∧
    env.canonicalize (out_path (sampleIdOf line ++ "_L001_R2_001.fastq.gz")) = .error e))

lemma manifest_rows_error (env : ManifestEnv) (row : String) (e : String)
    (hrow : lineFailsWith env row e) :
    ∀ pre : List String, (∀ l ∈ pre, lineProcessOk env l) →
      ∀ post : List String,
        generate_qiime_manifest_rows env (pre ++ row :: post) =
          (pre.filterMap (manifestRowFor env), some e) := by
  obtain ⟨h6, hfail⟩ := hrow
  intro pre
  induction pre with
  | nil =>
    intro _ post
    simp only [List.nil_append, generate_qiime_manifest_rows]
    rw [if_neg (by omega : ¬ (splitChar '\t' row).length ≠ 6)]
    rcases hfail with hf | ⟨⟨f, hf1⟩, hf2⟩
    · rw [hf]
      simp
    · rw [hf1, hf2]
      simp
  | cons l t ih =>
    intro hpre post
    have hl := hpre l (by simp)
    have ht : ∀ x ∈ t, lineProcessOk env x := fun x hx => hpre x (by simp [hx])
    simp only [List.cons_append, generate_qiime_manifest_rows, List.append_eq]
    by_cases hlen : (splitChar '\t' l).length ≠ 6
    · rw [if_pos hlen, ih ht post]
      simp [List.filterMap_cons, manifestRowFor, hlen]
    · rw [if_neg hlen]
      rcases hl with h6l | ⟨⟨f, hf⟩, ⟨r, hr⟩⟩
      · exact absurd h6l hlen
      · rw [hf, hr]
        simp only
        rw [ih ht post]
        simp [List.filterMap_cons, manifestRowFor, hlen, hf, hr]

/-- C10: if some six-field barcode row's expected demultiplexed output
cannot be canonicalized (for example the file is missing), the manifest
generator returns that error immediately — rows after the failing one
are never processed — and the manifest file is left on disk containing
the header plus the rows of all earlier successfully processed lines; it
is neither deleted nor is the offending row skipped. -/
theorem generate_qiime_manifest_error_partial (env : ManifestEnv) (hdr row : String)
    (pre post : List String) (e : String)
    (hpre : ∀ l ∈ pre, lineProcessOk env l)
    (hrow : lineFailsWith env row e) :
    generate_qiime_manifest env (hdr :: pre ++ row :: post) =
      (manifestHeader :: pre.filterMap (manifestRowFor env), some e) := by
  show (manifestHeader :: (generate_qiime_manifest_rows env (pre ++ row :: post)).1,
      (generate_qiime_manifest_rows env (pre ++ row :: post)).2) =
    (manifestHeader :: pre.filterMap (manifestRowFor env), some e)
  rw [manifest_rows_error env row e hrow pre hpre post]

/-- A concrete environment in which only sample `a_CCC`'s two output
files canonicalize. -/
def manifestEnvEx : ManifestEnv :=
  ManifestEnv.mk (fun p =>
    if p = "windchime_out/a_CCC_L001_R1_001.fastq.gz" then .ok "/abs/r1"
    else if p = "windchime_out/a_CCC_L001_R2_001.fastq.gz" then .ok "/abs/r2"
    else .error "No such file")

/-- Concrete instantiation of `generate_qiime_manifest_error_partial`:
the second sample's missing output aborts generation, leaving the header
and the first sample's row. -/
theorem generate_qiime_manifest_error_partial_witness :
    generate_qiime_manifest manifestEnvEx
        ["name\tfile\tidx1\tseq1\tidx2\tseq2",
         "a\tf\ti1\ts1\ti2\tCCC",
         "b\tf\ti1\ts1\ti2\tDDD"] =
      (manifestHeader ::
        ["a\tf\ti1\ts1\ti2\tCCC"].filterMap (manifestRowFor manifestEnvEx),
       some "No such file") :=
  generate_qiime_manifest_error_partial manifestEnvEx
    "name\tfile\tidx1\tseq1\tidx2\tseq2" "b\tf\ti1\ts1\ti2\tDDD"
    ["a\tf\ti1\ts1\ti2\tCCC"] [] "No such file"
    (by
      intro l hl
      rcases List.mem_singleton.mp hl with rfl
      exact Or.inr ⟨⟨"/abs/r1", by with_unfolding_all rfl⟩,
        ⟨"/abs/r2", by with_unfolding_all rfl⟩⟩)
    ⟨by with_unfolding_all rfl, Or.inl (by with_unfolding_all rfl)⟩

end Windchime
